import Mathlib

/-!
Verification of the AutoDB method-name query engine and its task scheduler.

The definitions below are a shallow embedding of `core/method_generator.py`
(the `AutoDB` class: regex-based method-name parsers, schema auto-provisioning,
generated query execution, raw-SQL introspection) and `core/service_loader.py`
(`process_task` / `poll_tasks`).  Python regular expressions are modelled by
bespoke matchers that reproduce the leftmost-greedy backtracking semantics of
each concrete pattern used by the source.
-/

namespace MethodGen

/-- Word character, as in the regex character class backslash-w restricted to
identifier characters: ASCII letters, digits and underscore. -/
def wordChar (c : Char) : Bool := c.isAlpha || c.isDigit || c == '_'

/-- Every character of the list is a word character. -/
def allWord (cs : List Char) : Bool := cs.all wordChar

/-- Character matched by the regex dot: anything except a newline. -/
def dotChar (c : Char) : Bool := c != '\n'

/-- Every character of the list is matched by the regex dot. -/
def allDot (cs : List Char) : Bool := cs.all dotChar

/-- All decompositions `s = a ++ sep ++ b`, ordered by increasing length of
`a`.  This enumerates every occurrence of the separator `sep` inside `s`. -/
def splitAllOcc (sep : List Char) : List Char → List (List Char × List Char)
  | [] => []
  | c :: rest =>
    (if sep.isPrefixOf (c :: rest) then [(([] : List Char), (c :: rest).drop sep.length)] else []) ++
    (splitAllOcc sep rest).map (fun p => (c :: p.1, p.2))

/-- Strip a literal leading pattern, failing when it is not there. -/
def dropPre (pre cs : List Char) : Option (List Char) :=
  if pre.isPrefixOf cs then some (cs.drop pre.length) else none

/-- Strip a literal trailing pattern, failing when it is not there. -/
def dropSuffix (suf cs : List Char) : Option (List Char) :=
  if suf.reverse.isPrefixOf cs.reverse then some ((cs.reverse.drop suf.length).reverse) else none

/-- Try the candidate splits produced by `splitAllOcc` longest-first-component
first: this is exactly the order in which a greedy quantifier followed by a
literal separator explores decompositions while backtracking. -/
def greedyLast {α : Type} (cands : List (List Char × List Char)) (f : List Char × List Char → Option α) : Option α :=
  cands.reverse.findSome? f

/-- The alternation `(get|set|update|delete)_` at the start of a name:
returns the operation token and the remainder of the name. -/
def opSplit (cs : List Char) : Option (String × List Char) :=
  match dropPre "get_".data cs with
  | some r => some ("get", r)
  | none =>
    match dropPre "set_".data cs with
    | some r => some ("set", r)
    | none =>
      match dropPre "update_".data cs with
      | some r => some ("update", r)
      | none =>
        match dropPre "delete_".data cs with
        | some r => some ("delete", r)
        | none => none

/-- Greedy match of `(w+)_(w+)$` (w standing for word characters) against `q`:
split at the last underscore that leaves two nonempty all-word parts. -/
def splitLastUnd (q : List Char) : Option (List Char × List Char) :=
  greedyLast (splitAllOcc "_".data q) (fun p =>
    if !p.1.isEmpty && allWord p.1 && !p.2.isEmpty && allWord p.2 then some p else none)

/-- Match of `^(get|set|update|delete)_(.+)_with_(w+)_(w+)$` with greedy
backtracking: the dot-plus group takes the longest prefix for which the rest
of the pattern still matches. -/
def matchWithStatusTable (cs : List Char) : Option (String × List Char × List Char × List Char) :=
  match opSplit cs with
  | none => none
  | some (op, rest) =>
    greedyLast (splitAllOcc "_with_".data rest) (fun p =>
      if !p.1.isEmpty && allDot p.1 then
        match splitLastUnd p.2 with
        | some (st, tb) => some (op, p.1, st, tb)
        | none => none
      else none)

/-- Match of `^set_(.+)_with_(w+)_(w+)$`, the setter variant of the
status-table pattern. -/
def matchSetWithStatusTable (cs : List Char) : Option (List Char × List Char × List Char) :=
  match dropPre "set_".data cs with
  | none => none
  | some rest =>
    greedyLast (splitAllOcc "_with_".data rest) (fun p =>
      if !p.1.isEmpty && allDot p.1 then
        match splitLastUnd p.2 with
        | some (st, tb) => some (p.1, st, tb)
        | none => none
      else none)

/-- Match of `^(get|set|update|delete)_(w+)_by_(w+)$`. -/
def matchByColumn (cs : List Char) : Option (String × List Char × List Char) :=
  match opSplit cs with
  | none => none
  | some (op, rest) =>
    greedyLast (splitAllOcc "_by_".data rest) (fun p =>
      if !p.1.isEmpty && allWord p.1 && !p.2.isEmpty && allWord p.2 then some (op, p.1, p.2) else none)

/-- Match of `^set_(w+)_by_(w+)$`. -/
def matchSetByColumn (cs : List Char) : Option (List Char × List Char) :=
  match dropPre "set_".data cs with
  | none => none
  | some rest =>
    greedyLast (splitAllOcc "_by_".data rest) (fun p =>
      if !p.1.isEmpty && allWord p.1 && !p.2.isEmpty && allWord p.2 then some (p.1, p.2) else none)

/-- Match of `^set_(w+)_by_(w+)_and_(w+)$`; the first group is maximised
first, then the second, exactly as regex backtracking explores them. -/
def matchSetByTwo (cs : List Char) : Option (List Char × List Char × List Char) :=
  match dropPre "set_".data cs with
  | none => none
  | some rest =>
    greedyLast (splitAllOcc "_by_".data rest) (fun p =>
      if !p.1.isEmpty && allWord p.1 then
        greedyLast (splitAllOcc "_and_".data p.2) (fun q =>
          if !q.1.isEmpty && allWord q.1 && !q.2.isEmpty && allWord q.2 then some (p.1, q.1, q.2) else none)
      else none)

/-- Match of `^(get|set|update|delete)_(w+)$`. -/
def matchSimple (cs : List Char) : Option (String × List Char) :=
  match opSplit cs with
  | none => none
  | some (op, rest) => if !rest.isEmpty && allWord rest then some (op, rest) else none

/-- Full match of `set_(w+)_status`: the name is `set_`, a nonempty all-word
group, then the literal suffix `_status`. -/
def matchSetStatus (cs : List Char) : Option (List Char) :=
  match dropPre "set_".data cs with
  | none => none
  | some rest =>
    match dropSuffix "_status".data rest with
    | none => none
    | some g => if !g.isEmpty && allWord g then some g else none

/-- Pluralisation used throughout the source: append `s` unless the name
already ends in `s`. -/
def pluralize (t : String) : String :=
  if t.data.getLast? == some 's' then t else (t.data ++ "s".data).asString

/-- Embedding of `_guess_table_from_method`: first try
`(get|set|update|delete)_(w+)_by_` as an anchored-at-start match, then
`(get|set|update|delete)_(w+)$`; pluralise the captured group.  `none` stands
for the `AttributeError` the Python function raises. -/
def guessTable (cs : List Char) : Option String :=
  match opSplit cs with
  | none => none
  | some (_, rest) =>
    match greedyLast (splitAllOcc "_by_".data rest) (fun p =>
        if !p.1.isEmpty && allWord p.1 then some p.1 else none) with
    | some a => some (pluralize a.asString)
    | none => if !rest.isEmpty && allWord rest then some (pluralize rest.asString) else none

/-- The `AutoDB.OPERATION_KEYWORDS` allow-list. -/
def OPERATION_KEYWORDS : List String := ["get", "set", "update", "delete"]

/-- The `AutoDB.STATUS_KEYWORDS` allow-list. -/
def STATUS_KEYWORDS : List String := ["uploaded", "pending", "processing", "waiting", "done", "error"]

/-- Fuelled splitter on a nonempty literal separator, with the semantics of
the Python `str.split`: cut at every non-overlapping occurrence, leftmost
first, keeping empty pieces. -/
def splitOnL (sep : List Char) : Nat → List Char → List (List Char)
  | 0, s => [s]
  | fuel + 1, s =>
    match (splitAllOcc sep s).head? with
    | none => [s]
    | some (a, b) => a :: splitOnL sep fuel b

/-- Splitting a columns part on the `_and_` separator, as
`columns_part.split("_and_")` does. -/
def splitAnd (cp : List Char) : List String :=
  (splitOnL "_and_".data cp.length cp).map List.asString

/-- Removal of a literal suffix when present, as `str.removesuffix`. -/
def removeSuffixStr (s suf : String) : String :=
  match dropSuffix suf.data s.data with
  | some g => g.asString
  | none => s

/-- Structured result of parsing a method name: which generated method the
name denotes, with every identifier the generated SQL would mention. -/
inductive GenMethod where
  | getWithStatus (cols : List String) (status table : String)
  | getByColumn (col byCol table : String)
  | getSimple (table : String)
  | setWithStatus (cols : List String) (status table : String)
  | setByTwoCols (col f1 f2 table : String)
  | setByColumn (col byCol table : String) (statusMode : Bool)
  | setStatusOf (table : String)
deriving DecidableEq, Repr

/-- Embedding of `AutoDB._parse_get_with_status_table`. -/
def parseGetWithStatusTable (cs : List Char) : Option GenMethod :=
  match matchWithStatusTable cs with
  | none => none
  | some (op, cp, st, tb) =>
    if OPERATION_KEYWORDS.contains op && STATUS_KEYWORDS.contains st.asString then
      some (.getWithStatus (splitAnd cp) st.asString tb.asString)
    else none

/-- Embedding of `AutoDB._parse_get_by_column`. -/
def parseGetByColumn (cs : List Char) : Option GenMethod :=
  match matchByColumn cs with
  | none => none
  | some (op, col, byCol) =>
    if OPERATION_KEYWORDS.contains op then
      match guessTable cs with
      | none => none
      | some tb => some (.getByColumn col.asString byCol.asString tb)
    else none

/-- Embedding of `AutoDB._parse_get_simple_table`.  The captured group is
used as the table name directly, without pluralisation. -/
def parseGetSimpleTable (cs : List Char) : Option GenMethod :=
  match matchSimple cs with
  | none => none
  | some (op, tb) =>
    if OPERATION_KEYWORDS.contains op then some (.getSimple tb.asString) else none

/-- Embedding of `AutoDB._parse_set_with_status_table`.  Note that the
source performs no allow-list check on the status group here. -/
def parseSetWithStatusTable (cs : List Char) : Option GenMethod :=
  match matchSetWithStatusTable cs with
  | none => none
  | some (cp, st, tb) => some (.setWithStatus (splitAnd cp) st.asString tb.asString)

/-- Embedding of `AutoDB._parse_set_by_two_columns`. -/
def parseSetByTwoColumns (cs : List Char) : Option GenMethod :=
  match matchSetByTwo cs with
  | none => none
  | some (col, f1, f2) =>
    match guessTable cs with
    | none => none
    | some tb => some (.setByTwoCols col.asString f1.asString f2.asString tb)

/-- Embedding of `AutoDB._parse_set_by_column`, including the `_status`
suffix normalisation of the column, filter column and table. -/
def parseSetByColumn (cs : List Char) : Option GenMethod :=
  match matchSetByColumn cs with
  | none => none
  | some (colRaw, byRaw) =>
    match guessTable cs with
    | none => none
    | some tbRaw =>
      let col := removeSuffixStr colRaw.asString "_status"
      let byCol := removeSuffixStr byRaw.asString "_status"
      if (dropSuffix "_status".data tbRaw.data).isSome then
        some (.setByColumn col byCol (pluralize (removeSuffixStr tbRaw "_status")) true)
      else
        some (.setByColumn col byCol (pluralize tbRaw) false)

/-- Embedding of `AutoDB._parse_set_status_method`. -/
def parseSetStatusMethod (cs : List Char) : Option GenMethod :=
  match matchSetStatus cs with
  | none => none
  | some g => some (.setStatusOf (pluralize g.asString))

/-- Embedding of `AutoDB.__getattr__`: the ordered parser chains for `set_`
and `get_` prefixed names; `none` stands for the `AttributeError` raised when
no parser produces a method. -/
def dispatchL (cs : List Char) : Option GenMethod :=
  if "set_".data.isPrefixOf cs then
    match parseSetStatusMethod cs with
    | some m => some m
    | none =>
      match parseSetWithStatusTable cs with
      | some m => some m
      | none =>
        match parseSetByTwoColumns cs with
        | some m => some m
        | none => parseSetByColumn cs
  else if "get_".data.isPrefixOf cs then
    match parseGetWithStatusTable cs with
    | some m => some m
    | none =>
      match parseGetByColumn cs with
      | some m => some m
      | none => parseGetSimpleTable cs
  else none

/-- Method-name dispatch on a string. -/
def dispatch (name : String) : Option GenMethod := dispatchL name.data

/-- SQLite value stored in a cell. -/
inductive Val where
  | int (n : Int)
  | text (s : String)
  | null
deriving DecidableEq, Repr

/-- Declared column type: the integer identity column created with a table,
or the free-text type every provisioned column gets. -/
inductive ColType where
  | intId
  | text
deriving DecidableEq, Repr

/-- One table of the store: ordered columns with their declared types, and
rows aligned with the column list. -/
structure DbTable where
  cols : List (String × ColType)
  rows : List (List Val)
deriving DecidableEq, Repr

/-- The relational store: tables in creation order. -/
abbrev Store := List (String × DbTable)

/-- A row rendered as a record, a mapping from column name to value. -/
abbrev Record := List (String × Val)

/-- Look a table up by name. -/
def lookupTable : Store → String → Option DbTable
  | [], _ => none
  | p :: rest, t => if p.1 == t then some p.2 else lookupTable rest t

/-- Names of the columns of a table. -/
def colNames (tb : DbTable) : List String := tb.cols.map Prod.fst

/-- Column names of a table of the store (empty when the table is absent). -/
def colsOf (st : Store) (t : String) : List String :=
  match lookupTable st t with
  | some tb => colNames tb
  | none => []

/-- Replace the table named `t`. -/
def updateTable (st : Store) (t : String) (tb : DbTable) : Store :=
  st.map (fun p => if p.1 == t then (p.1, tb) else p)

/-- Embedding of `_create_table`: a fresh table holding only the integer
identity column `id`. -/
def createTable (st : Store) (t : String) : Store :=
  st ++ [(t, ⟨[("id", ColType.intId)], []⟩)]

/-- `ALTER TABLE t ADD COLUMN c TEXT`: appends a nullable text column,
padding existing rows with null; fails on a duplicate column name or a
missing table, as the SQL statement would. -/
def addColumn (st : Store) (t c : String) : Except String Store :=
  match lookupTable st t with
  | none => .error "no such table"
  | some tb =>
    if (colNames tb).contains c then .error "duplicate column name"
    else .ok (updateTable st t ⟨tb.cols ++ [(c, ColType.text)], tb.rows.map (fun r => r ++ [Val.null])⟩)

/-- Observable structural change of the schema. -/
inductive SEvent where
  | createdTable (t : String)
  | addedColumn (t c : String)
deriving DecidableEq, Repr

/-- The column loop of `_ensure_table_and_columns`: the membership test uses
the snapshot of existing columns taken before the loop, exactly as the
source reads `PRAGMA table_info` once. -/
def ensureLoop (t : String) (snapshot : List String) : Store → List String → List SEvent → Except String (Store × List SEvent)
  | st, [], acc => .ok (st, acc)
  | st, c :: rest, acc =>
    if snapshot.contains c then ensureLoop t snapshot st rest acc
    else
      match addColumn st t c with
      | .error e => .error e
      | .ok st' => ensureLoop t snapshot st' rest (acc ++ [SEvent.addedColumn t c])

/-- Embedding of `AutoDB._ensure_table_and_columns`: create the table when
absent, then add every requested column missing from the snapshot of the
table's columns.  Also returns the trace of structural changes. -/
def ensureTableAndColumns (st : Store) (t : String) (cols : List String) : Except String (Store × List SEvent) :=
  let p := if (lookupTable st t).isSome then (st, ([] : List SEvent))
           else (createTable st t, [SEvent.createdTable t])
  ensureLoop t (colsOf p.1 t) p.1 cols p.2

/-- Value of a named column inside a row (positional lookup through the
column list). -/
def getVal : List String → List Val → String → Val
  | c :: cs, v :: vs, target => if c == target then v else getVal cs vs target
  | _, _, _ => Val.null

/-- Overwrite the named column inside a row. -/
def setVal : List String → List Val → String → Val → List Val
  | c :: cs, v :: vs, target, x => if c == target then x :: vs else v :: setVal cs vs target x
  | _, vs, _, _ => vs

/-- Row satisfies every equality condition of a WHERE clause. -/
def rowMatches (names : List String) (conds : List (String × Val)) (r : List Val) : Bool :=
  conds.all (fun cv => getVal names r cv.1 == cv.2)

/-- `SELECT c1, c2, ... FROM t WHERE conds`: fails when the table or any
referenced column is missing, as SQLite would. -/
def selectCols (st : Store) (t : String) (wanted : List String) (conds : List (String × Val)) : Except String (List Record) :=
  match lookupTable st t with
  | none => .error "no such table"
  | some tb =>
    if wanted.all (fun c => (colNames tb).contains c) && conds.all (fun cv => (colNames tb).contains cv.1) then
      .ok ((tb.rows.filter (rowMatches (colNames tb) conds)).map
        (fun r => wanted.map (fun c => (c, getVal (colNames tb) r c))))
    else .error "no such column"

/-- `SELECT * FROM t WHERE conds`, rows rendered as full records. -/
def selectStar (st : Store) (t : String) (conds : List (String × Val)) : Except String (List Record) :=
  match lookupTable st t with
  | none => .error "no such table"
  | some tb =>
    if conds.all (fun cv => (colNames tb).contains cv.1) then
      .ok ((tb.rows.filter (rowMatches (colNames tb) conds)).map (fun r => (colNames tb).zip r))
    else .error "no such column"

/-- `UPDATE t SET updates WHERE conds`. -/
def updateRows (st : Store) (t : String) (updates : List (String × Val)) (conds : List (String × Val)) : Except String Store :=
  match lookupTable st t with
  | none => .error "no such table"
  | some tb =>
    if updates.all (fun cv => (colNames tb).contains cv.1) && conds.all (fun cv => (colNames tb).contains cv.1) then
      .ok (updateTable st t ⟨tb.cols,
        tb.rows.map (fun r =>
          if rowMatches (colNames tb) conds r then
            updates.foldl (fun acc cv => setVal (colNames tb) acc cv.1 cv.2) r
          else r)⟩)
    else .error "no such column"

instance {ε α : Type} [DecidableEq ε] [DecidableEq α] : DecidableEq (Except ε α) := fun a b =>
  match a, b with
  | Except.error e, Except.error f =>
    if h : e = f then isTrue (by subst h; rfl) else isFalse (by intro hh; injection hh; contradiction)
  | Except.ok x, Except.ok y =>
    if h : x = y then isTrue (by subst h; rfl) else isFalse (by intro hh; injection hh; contradiction)
  | Except.error _, Except.ok _ => isFalse (by intro hh; injection hh)
  | Except.ok _, Except.error _ => isFalse (by intro hh; injection hh)

/-- Result of running a generated method: the store afterwards, the trace of
structural changes, and either the returned records or the raised error. -/
abbrev RunOut := Store × List SEvent × Except String (List Record)

/-- Body of a pattern-1 getter: ensure the columns plus `status`, then select
the target columns filtered by the parsed status literal. -/
def runGetWithStatus (cols : List String) (status table : String) (store : Store) : RunOut :=
  match ensureTableAndColumns store table (cols ++ ["status"]) with
  | .error e => (store, [], .error e)
  | .ok (s1, ev) =>
    match selectCols s1 table cols [("status", Val.text status)] with
    | .error e => (s1, ev, .error e)
    | .ok recs => (s1, ev, .ok recs)

/-- Body of a `get_{column}_by_{column}` getter. -/
def runGetByColumn (col byCol table : String) (store : Store) (v : Val) : RunOut :=
  match ensureTableAndColumns store table [col, byCol] with
  | .error e => (store, [], .error e)
  | .ok (s1, ev) =>
    match selectCols s1 table [col] [(byCol, v)] with
    | .error e => (s1, ev, .error e)
    | .ok recs => (s1, ev, .ok recs)

/-- Body of a zero-argument `get_{table}` getter: ensure with no columns,
then select every row with every column. -/
def runGetSimple (table : String) (store : Store) : RunOut :=
  match ensureTableAndColumns store table [] with
  | .error e => (store, [], .error e)
  | .ok (s1, ev) =>
    match selectStar s1 table [] with
    | .error e => (s1, ev, .error e)
    | .ok recs => (s1, ev, .ok recs)

/-- Body of a pattern-1 setter: the explicit argument-count check comes
before any store access; then ensure, update the target columns of the rows
carrying the status literal, and re-select every such row in full. -/
def runSetWithStatus (cols : List String) (status table : String) (store : Store) (args : List Val) : RunOut :=
  if args.length ≠ cols.length then (store, [], .error "ValueError: wrong number of values")
  else
    match ensureTableAndColumns store table (cols ++ ["status"]) with
    | .error e => (store, [], .error e)
    | .ok (s1, ev) =>
      match updateRows s1 table (cols.zip args) [("status", Val.text status)] with
      | .error e => (s1, ev, .error e)
      | .ok s2 =>
        match selectStar s2 table [("status", Val.text status)] with
        | .error e => (s2, ev, .error e)
        | .ok recs => (s2, ev, .ok recs)

/-- Body of a `set_{column}_by_{column}` setter.  The `statusMode` flag
selects the `SET status=?` query variant; the ensured column list always
contains `status`.  Note the method only updates: nothing is ever
inserted. -/
def runSetByColumn (col byCol table : String) (statusMode : Bool) (store : Store) (v w : Val) : RunOut :=
  match ensureTableAndColumns store table [col, byCol, "status"] with
  | .error e => (store, [], .error e)
  | .ok (s1, ev) =>
    match updateRows s1 table [((if statusMode then "status" else col), v)] [(byCol, w)] with
    | .error e => (s1, ev, .error e)
    | .ok s2 =>
      match selectStar s2 table [(byCol, w)] with
      | .error e => (s2, ev, .error e)
      | .ok recs => (s2, ev, .ok recs)

/-- Body of a `set_{column}_by_{column}_and_{column}` setter. -/
def runSetByTwoCols (col f1 f2 table : String) (store : Store) (v a b : Val) : RunOut :=
  match ensureTableAndColumns store table [col, f1, f2] with
  | .error e => (store, [], .error e)
  | .ok (s1, ev) =>
    match updateRows s1 table [(col, v)] [(f1, a), (f2, b)] with
    | .error e => (s1, ev, .error e)
    | .ok s2 =>
      match selectStar s2 table [(f1, a), (f2, b)] with
      | .error e => (s2, ev, .error e)
      | .ok recs => (s2, ev, .ok recs)

/-- Body of a `set_{table}_status` setter. -/
def runSetStatusOf (table : String) (store : Store) (idv statusv : Val) : RunOut :=
  match ensureTableAndColumns store table ["status"] with
  | .error e => (store, [], .error e)
  | .ok (s1, ev) =>
    match updateRows s1 table [("status", statusv)] [("id", idv)] with
    | .error e => (s1, ev, .error e)
    | .ok s2 =>
      match selectStar s2 table [("id", idv)] with
      | .error e => (s2, ev, .error e)
      | .ok recs => (s2, ev, .ok recs)

/-- Run a parsed method on the store with positional argument values.  A
fixed-arity method called with the wrong number of arguments raises before
its body runs; the starred pattern-1 setter does its own in-body check. -/
def runGen (g : GenMethod) (store : Store) (args : List Val) : RunOut :=
  match g with
  | .getWithStatus cols st tb =>
    match args with
    | [] => runGetWithStatus cols st tb store
    | _ => (store, [], .error "TypeError: wrong number of arguments")
  | .getByColumn col byCol tb =>
    match args with
    | [v] => runGetByColumn col byCol tb store v
    | _ => (store, [], .error "TypeError: wrong number of arguments")
  | .getSimple tb =>
    match args with
    | [] => runGetSimple tb store
    | _ => (store, [], .error "TypeError: wrong number of arguments")
  | .setWithStatus cols st tb => runSetWithStatus cols st tb store args
  | .setByTwoCols col f1 f2 tb =>
    match args with
    | [v, a, b] => runSetByTwoCols col f1 f2 tb store v a b
    | _ => (store, [], .error "TypeError: wrong number of arguments")
  | .setByColumn col byCol tb statusMode =>
    match args with
    | [v, w] => runSetByColumn col byCol tb statusMode store v w
    | _ => (store, [], .error "TypeError: wrong number of arguments")
  | .setStatusOf tb =>
    match args with
    | [idv, statusv] => runSetStatusOf tb store idv statusv
    | _ => (store, [], .error "TypeError: wrong number of arguments")

/-- Status-lifecycle event issued by one dispatched processing unit of the
scheduler against the task's record. -/
inductive TEvent where
  | setStatus (st : String)
  | savedResult (r : String)
deriving DecidableEq, Repr

/-- Model of one registered task type at one tick: its name, whether
`db_fetch` returned a truthy payload, and the outcome of `process`
(`.error` standing for a raised exception). -/
structure TaskModel where
  name : String
  hasPayload : Bool
  outcome : Except String String
deriving Repr

/-- Embedding of `process_task`: set `processing`, run `process`; on success
save the result then set `waiting`; on exception set `error`.  The function
is total: the exception is swallowed, never propagated to the caller. -/
def processTask (t : TaskModel) : List TEvent :=
  TEvent.setStatus "processing" ::
    match t.outcome with
    | .ok r => [TEvent.savedResult r, TEvent.setStatus "waiting"]
    | .error _ => [TEvent.setStatus "error"]

/-- Embedding of one sweep of `poll_tasks`: every registered task type is
fetched in registry order; a task with a payload is dispatched and yields
its processing unit's event trace, one without a payload is a no-op. -/
def pollTick (ts : List TaskModel) : List (String × List TEvent) :=
  ts.map (fun t => (t.name, if t.hasPayload then processTask t else []))

/-- Embedding of `n` consecutive ticks of the polling loop. -/
def pollRun (ts : List TaskModel) : Nat → List (List (String × List TEvent))
  | 0 => []
  | n + 1 => pollTick ts :: pollRun ts n

/-- Terminal lifecycle write: a transition to `waiting` or to `error`. -/
def terminalEvent : TEvent → Bool
  | .setStatus s => s == "waiting" || s == "error"
  | _ => false

/-- Whitespace character of the regex class backslash-s. -/
def isSpaceChar (c : Char) : Bool :=
  c == ' ' || c == '\t' || c == '\n' || c == '\r' || c == '\x0b' || c == '\x0c'

/-- Match `tok` then one or more whitespace characters then a maximal word
group at the head of `s`; returns the group and the remainder after it. -/
def tryTokWord (tok : List Char) (s : List Char) : Option (List Char × List Char) :=
  match dropPre tok s with
  | none => none
  | some r1 =>
    let ws := r1.takeWhile isSpaceChar
    if ws.isEmpty then none
    else
      let r2 := r1.drop ws.length
      let w := r2.takeWhile wordChar
      if w.isEmpty then none else some (w, r2.drop w.length)

/-- Match `tok1` whitespace `tok2` whitespace word, as in the
`insert into` and `delete from` table scans. -/
def tryTok2Word (tok1 tok2 : List Char) (s : List Char) : Option (List Char × List Char) :=
  match dropPre tok1 s with
  | none => none
  | some r1 =>
    let ws := r1.takeWhile isSpaceChar
    if ws.isEmpty then none else tryTokWord tok2 (r1.drop ws.length)

/-- Match `tok` whitespace word, optional whitespace, then a literal equals
sign, as in the `where`/`set` column scans. -/
def tryTokWordEq (tok : List Char) (s : List Char) : Option (List Char × List Char) :=
  match tryTokWord tok s with
  | none => none
  | some (w, r3) =>
    let r4 := r3.drop (r3.takeWhile isSpaceChar).length
    match r4 with
    | '=' :: r5 => some (w, r5)
    | _ => none

/-- `re.findall` driver: scan left to right, at every position try the step
matcher; on a match record the group and continue after the match, otherwise
advance one character. -/
def scanAll (step : List Char → Option (List Char × List Char)) : Nat → List Char → List (List Char)
  | 0, _ => []
  | _, [] => []
  | fuel + 1, c :: rest =>
    match step (c :: rest) with
    | some (w, after) => w :: scanAll step fuel after
    | none => scanAll step fuel rest

/-- Shortest prefix of `s` that is followed by one-or-more whitespace and the
literal `from`: the lazy middle group of the select-columns search. -/
def splitAtWsFrom : Nat → List Char → Option (List Char)
  | 0, _ => none
  | _, [] => none
  | fuel + 1, c :: rest =>
    let ws := (c :: rest).takeWhile isSpaceChar
    if !ws.isEmpty && "from".data.isPrefixOf ((c :: rest).drop ws.length) then some []
    else
      match splitAtWsFrom fuel rest with
      | some mid => some (c :: mid)
      | none => none

/-- `re.search` of `select` whitespace lazy-dot-star whitespace `from`:
leftmost `select` occurrence admitting a completion, shortest middle. -/
def searchSelect : Nat → List Char → Option (List Char)
  | 0, _ => none
  | _, [] => none
  | fuel + 1, c :: rest =>
    (match dropPre "select".data (c :: rest) with
     | some r1 =>
       let ws := r1.takeWhile isSpaceChar
       if ws.isEmpty then none
       else
         let r2 := r1.drop ws.length
         match splitAtWsFrom r2.length r2 with
         | some mid => if allDot mid then some mid else none
         | none => none
     | none => none) <|>
    searchSelect fuel rest

/-- Lazy group between the parenthesis of `insert into t (...)`: shortest
prefix before a closing parenthesis. -/
def upToCloseParen : List Char → Option (List Char)
  | [] => none
  | ')' :: _ => some []
  | c :: rest =>
    if dotChar c then
      match upToCloseParen rest with
      | some mid => some (c :: mid)
      | none => none
    else none

/-- `re.search` of `insert` ws `into` ws word ws-star open-paren lazy group
close-paren, returning the column list text. -/
def searchInsertCols : Nat → List Char → Option (List Char)
  | 0, _ => none
  | _, [] => none
  | fuel + 1, c :: rest =>
    (match tryTok2Word "insert".data "into".data (c :: rest) with
     | some (_, r3) =>
       let r4 := r3.drop (r3.takeWhile isSpaceChar).length
       match r4 with
       | '(' :: r5 => upToCloseParen r5
       | _ => none
     | none => none) <|>
    searchInsertCols fuel rest

/-- Strip leading and trailing whitespace, as `str.strip`. -/
def stripWs (s : List Char) : List Char :=
  ((s.dropWhile isSpaceChar).reverse.dropWhile isSpaceChar).reverse

/-- Split a raw column list on commas and strip each piece. -/
def splitCommaStrip (raw : List Char) : List String :=
  (splitOnL ",".data raw.length raw).map (fun c => (stripWs c).asString)

/-- Deduplicate preserving first occurrence, modelling the `set()` of
detected table names. -/
def dedup (l : List String) : List String :=
  l.foldl (fun acc x => if acc.contains x then acc else acc ++ [x]) []

/-- Table names detected by the five scans of `AutoDB.execute` over the
lowercased SQL text. -/
def scanTables (low : List Char) : List String :=
  let n := low.length
  dedup ((scanAll (tryTokWord "from".data) n low ++
          scanAll (tryTokWord "join".data) n low ++
          scanAll (tryTok2Word "insert".data "into".data) n low ++
          scanAll (tryTokWord "update".data) n low ++
          scanAll (tryTok2Word "delete".data "from".data) n low).map List.asString)

/-- Column names detected by the column scans of `AutoDB.execute`: the
select list (unless it is a star or contains a function call), then the
`where`, `set` and `insert` scans, in the order the source applies them. -/
def scanColumns (low : List Char) : List String :=
  let n := low.length
  let selCols :=
    match searchSelect n low with
    | some raw =>
      if (stripWs raw).asString != "*" && !raw.contains '(' then splitCommaStrip raw else []
    | none => []
  selCols ++
    (scanAll (tryTokWordEq "where".data) n low).map List.asString ++
    (scanAll (tryTokWordEq "set".data) n low).map List.asString ++
    (match searchInsertCols n low with
     | some raw => splitCommaStrip raw
     | none => [])

/-- Create every detected table that is absent. -/
def ensureTablesOnly : Store → List String → Store × List SEvent
  | st, [] => (st, [])
  | st, t :: rest =>
    let p := if (lookupTable st t).isSome then (st, ([] : List SEvent))
             else (createTable st t, [SEvent.createdTable t])
    let q := ensureTablesOnly p.1 rest
    (q.1, p.2 ++ q.2)

/-- Add every detected column absent from the table, checking against the
current schema as the source keeps its `existing_cols` set up to date. -/
def addColsChecked : Store → String → List String → Store × List SEvent
  | st, _, [] => (st, [])
  | st, t, c :: rest =>
    if (colsOf st t).contains c then addColsChecked st t rest
    else
      match addColumn st t c with
      | .ok st' =>
        let q := addColsChecked st' t rest
        (q.1, SEvent.addedColumn t c :: q.2)
      | .error _ => addColsChecked st t rest

/-- Apply the detected column list to every detected table, as the source's
per-table loop does. -/
def addColsForTables : Store → List String → List String → Store × List SEvent
  | st, [], _ => (st, [])
  | st, t :: rest, cols =>
    let p := addColsChecked st t cols
    let q := addColsForTables p.1 rest cols
    (q.1, p.2 ++ q.2)

/-- Minimal evaluator for the statement shapes the raw engine runs here:
`select <cols> from <t> [where <col> = ?]`, the first positional parameter
binding the placeholder. -/
def runRawStatement (st : Store) (low : List Char) (params : List Val) : Except String (List Record) :=
  match searchSelect low.length low, (scanAll (tryTokWord "from".data) low.length low).head? with
  | some raw, some t =>
    let cols := splitCommaStrip raw
    let conds :=
      match (scanAll (tryTokWordEq "where".data) low.length low).head?, params.head? with
      | some c, some v => [(c.asString, v)]
      | _, _ => []
    selectCols st t.asString cols conds
  | _, _ => .error "unsupported statement in model"

/-- Embedding of `AutoDB.execute`: lowercase the SQL text, detect table and
column references, provision them, then run the statement. -/
def executeRaw (store : Store) (sql : String) (params : List Val) : Store × List SEvent × Except String (List Record) :=
  let low := sql.data.map Char.toLower
  let tabs := scanTables low
  let p := ensureTablesOnly store tabs
  let q := addColsForTables p.1 tabs (scanColumns low)
  (q.1, p.2 ++ q.2, runRawStatement q.1 low params)

/-- Rows of a table of the store (empty when the table is absent). -/
def rowsOf (st : Store) (t : String) : List (List Val) :=
  match lookupTable st t with
  | some tb => tb.rows
  | none => []

/-- Outcome of calling the generated `set_image_by_user_id("url123", 42)` on
an empty store. -/
def c1Out : RunOut :=
  runGen (GenMethod.setByColumn "image" "user_id" "images" false) [] [Val.text "url123", Val.int 42]

/-- The record claim C1 expects the call to return. -/
def c1ClaimedRecord : Record := [("id", Val.int 1), ("image", Val.text "url123"), ("user_id", Val.int 42)]

/-- Claim C1 as stated: after the call on the empty store the `images` table
has exactly the columns id, image, user_id; a row with user_id 42 exists; and
the call returns that row as the claimed record. -/
abbrev c1Claim : Prop :=
  (colsOf c1Out.1 "images").Perm ["id", "image", "user_id"] ∧
  rowsOf c1Out.1 "images" ≠ [] ∧
  c1Out.2.2 = Except.ok [c1ClaimedRecord]

/-- The store of the raw-SQL scenario of claim C5: a `widgets` table lacking
column `bar`, holding one row. -/
def c5Store : Store :=
  [("widgets", ⟨[("id", ColType.intId), ("foo", ColType.text)], [[Val.int 1, Val.text "a"]]⟩)]

end MethodGen

namespace MethodGen

/-- C1 counterexample: on an empty store `set_image_by_user_id("url123", 42)`
does not behave as claimed — the created table also gets a `status` column,
no row is inserted (the generated statement is an UPDATE), and the call
returns the empty list instead of the claimed record. -/
theorem C1_counterexample : ¬ c1Claim := by decide

/-- C1 (amended): the call parses to the `set_{column}_by_{column}` setter,
creates table `images` with columns id, image, user_id and status, leaves the
table empty (nothing is inserted and the UPDATE affects no row), and returns
the empty list. -/
theorem C1_amended_behaviour :
    dispatch "set_image_by_user_id" = some (GenMethod.setByColumn "image" "user_id" "images" false) ∧
    c1Out = ([("images", ⟨[("id", ColType.intId), ("image", ColType.text),
                           ("user_id", ColType.text), ("status", ColType.text)], []⟩)],
             [SEvent.createdTable "images", SEvent.addedColumn "images" "image",
              SEvent.addedColumn "images" "user_id", SEvent.addedColumn "images" "status"],
             Except.ok []) :=
  ⟨by decide, by decide⟩

/-- C2 counterexample: with the status token `foo` outside the allow-list, a
set-prefixed pattern-1 name still parses (the setter parser never checks the
status), and a get-prefixed pattern-1 name also yields a method because
dispatch falls through to the simple-table pattern. -/
theorem C2_counterexample :
    STATUS_KEYWORDS.contains "foo" = false ∧
    dispatch "set_image_with_foo_images" = some (GenMethod.setWithStatus ["image"] "foo" "images") ∧
    dispatch "get_image_with_foo_images" = some (GenMethod.getSimple "image_with_foo_images") :=
  ⟨by decide, by decide, by decide⟩

/-- C2 (amended): the get-prefixed pattern-1 parser itself rejects a status
outside the allow-list (later patterns may still produce a method), while the
set-prefixed pattern-1 parser produces its method for any status token
without consulting the allow-list. -/
theorem C2_amended_status_checks :
    (∀ (cs : List Char) (op : String) (cp st tb : List Char),
        matchWithStatusTable cs = some (op, cp, st, tb) →
        STATUS_KEYWORDS.contains st.asString = false →
        parseGetWithStatusTable cs = none) ∧
    (∀ (cs cp st tb : List Char),
        matchSetWithStatusTable cs = some (cp, st, tb) →
        parseSetWithStatusTable cs = some (GenMethod.setWithStatus (splitAnd cp) st.asString tb.asString)) := by
  constructor
  · intro cs op cp st tb hm hst
    simp only [parseGetWithStatusTable, hm, hst, Bool.and_false, Bool.false_eq_true, if_false]
  · intro cs cp st tb hm
    simp only [parseSetWithStatusTable, hm]

/-- C2 witness: the amended statements applied to the two concrete
pattern-1 names with the non-allow-listed status `foo`. -/
theorem C2_amended_witness :
    parseGetWithStatusTable "get_image_with_foo_images".data = none ∧
    parseSetWithStatusTable "set_image_with_foo_images".data =
      some (GenMethod.setWithStatus ["image"] "foo" "images") :=
  ⟨C2_amended_status_checks.1 "get_image_with_foo_images".data "get"
     "image".data "foo".data "images".data rfl rfl,
   C2_amended_status_checks.2 "set_image_with_foo_images".data
     "image".data "foo".data "images".data rfl⟩

/-- C5: executing the raw text `SELECT foo, bar FROM widgets WHERE id = ?`
on a store whose `widgets` table lacks `bar` first provisions column `bar`
(the existing row is padded with null) and the select then succeeds,
returning its rows; on the unprovisioned store the same select would fail
for the missing column. -/
theorem C5_raw_sql_provisioning :
    executeRaw c5Store "SELECT foo, bar FROM widgets WHERE id = ?" [Val.int 1] =
      ([("widgets", ⟨[("id", ColType.intId), ("foo", ColType.text), ("bar", ColType.text)],
                     [[Val.int 1, Val.text "a", Val.null]]⟩)],
       [SEvent.addedColumn "widgets" "bar"],
       Except.ok [[("foo", Val.text "a"), ("bar", Val.null)]]) ∧
    selectCols c5Store "widgets" ["foo", "bar"] [("id", Val.int 1)] = Except.error "no such column" :=
  ⟨by decide, by decide⟩

/-- C6: a dispatched task whose `process` raises leaves the trace
processing-then-error with no saved result; the sweep still produces an
entry for every registered task type, every other entry is exactly the one
its own task determines, and every later tick happens unchanged. -/
theorem C6_failure_isolated (ts : List TaskModel) (i : Nat) (t : TaskModel) (e : String)
    (hi : ts[i]? = some t) (he : t.outcome = Except.error e) (hp : t.hasPayload = true) :
    (pollTick ts)[i]? = some (t.name, [TEvent.setStatus "processing", TEvent.setStatus "error"]) ∧
    (∀ r, TEvent.savedResult r ∉ [TEvent.setStatus "processing", TEvent.setStatus "error"]) ∧
    (pollTick ts).length = ts.length ∧
    (∀ (j : Nat) (u : TaskModel), j ≠ i → ts[j]? = some u →
      (pollTick ts)[j]? = some (u.name, if u.hasPayload then processTask u else [])) ∧
    (∀ n, pollRun ts n = List.replicate n (pollTick ts)) := by
  refine ⟨?_, ?_, ?_, ?_, ?_⟩
  · simp [pollTick, List.getElem?_map, hi, hp, processTask, he]
  · intro r
    simp
  · simp [pollTick]
  · intro j u _ hj
    simp [pollTick, List.getElem?_map, hj]
  · intro n
    induction n with
    | zero => rfl
    | succ k ih => simp [pollRun, ih, List.replicate_succ]

/-- C6 witness: a registry of two task types where the first one's `process`
raises; the first record's trace is processing-then-error and the second
task type's entry is untouched. -/
theorem C6_witness :
    (pollTick [⟨"image_service", true, Except.error "boom"⟩, ⟨"video_service", true, Except.ok "r"⟩])[0]? =
      some ("image_service", [TEvent.setStatus "processing", TEvent.setStatus "error"]) ∧
    (pollTick [⟨"image_service", true, Except.error "boom"⟩, ⟨"video_service", true, Except.ok "r"⟩])[1]? =
      some ("video_service", if true then processTask ⟨"video_service", true, Except.ok "r"⟩ else []) :=
  ⟨(C6_failure_isolated [⟨"image_service", true, Except.error "boom"⟩, ⟨"video_service", true, Except.ok "r"⟩]
      0 ⟨"image_service", true, Except.error "boom"⟩ "boom" rfl rfl rfl).1,
   (C6_failure_isolated [⟨"image_service", true, Except.error "boom"⟩, ⟨"video_service", true, Except.ok "r"⟩]
      0 ⟨"image_service", true, Except.error "boom"⟩ "boom" rfl rfl rfl).2.2.2.1
     1 ⟨"video_service", true, Except.ok "r"⟩ (by decide) rfl⟩

/-- C7: the trace of one dispatched processing unit starts with the
`processing` write, contains exactly one terminal write, and is
processing, saveResult, waiting on success and processing, error on
failure. -/
theorem C7_transition_order (t : TaskModel) :
    (processTask t).head? = some (TEvent.setStatus "processing") ∧
    ((processTask t).filter terminalEvent).length = 1 ∧
    (∀ r, t.outcome = Except.ok r →
      processTask t = [TEvent.setStatus "processing", TEvent.savedResult r, TEvent.setStatus "waiting"]) ∧
    (∀ e, t.outcome = Except.error e →
      processTask t = [TEvent.setStatus "processing", TEvent.setStatus "error"]) := by
  refine ⟨?_, ?_, ?_, ?_⟩
  · cases h : t.outcome <;> simp [processTask, h]
  · cases h : t.outcome <;> simp [processTask, h, terminalEvent]
  · intro r hr
    simp [processTask, hr]
  · intro e he
    simp [processTask, he]

/-- C7 witness: the transition order applied to a concrete successful task
and a concrete failing task. -/
theorem C7_witness :
    processTask ⟨"image_service", true, Except.ok "res"⟩ =
      [TEvent.setStatus "processing", TEvent.savedResult "res", TEvent.setStatus "waiting"] ∧
    processTask ⟨"image_service", true, Except.error "boom"⟩ =
      [TEvent.setStatus "processing", TEvent.setStatus "error"] :=
  ⟨(C7_transition_order ⟨"image_service", true, Except.ok "res"⟩).2.2.1 "res" rfl,
   (C7_transition_order ⟨"image_service", true, Except.error "boom"⟩).2.2.2 "boom" rfl⟩

/-- C8 counterexample: of the four operation verbs only the get form of
`<op>_<table>` produces a method; `set_widgets`, `update_widgets` and
`delete_widgets` all raise AttributeError. -/
theorem C8_counterexample :
    dispatch "set_widgets" = none ∧
    dispatch "update_widgets" = none ∧
    dispatch "delete_widgets" = none ∧
    dispatch "get_widgets" = some (GenMethod.getSimple "widgets") :=
  ⟨by decide, by decide, by decide, by decide⟩

/-- C9: the zero-argument getter for the untouched table name `widgets`
creates table `widgets` holding only the integer identity column `id` and
returns the empty sequence. -/
theorem C9_untouched_table :
    dispatch "get_widgets" = some (GenMethod.getSimple "widgets") ∧
    runGen (GenMethod.getSimple "widgets") [] [] =
      ([("widgets", ⟨[("id", ColType.intId)], []⟩)], [SEvent.createdTable "widgets"], Except.ok []) :=
  ⟨by decide, by decide⟩

/-- C10: a pattern-1 setter called with a number of values different from
its number of target columns raises the value error before any store
access: the store is unchanged, no structural change happens and no
statement runs. -/
theorem C10_arity_check_first (cols : List String) (status table : String) (store : Store)
    (args : List Val) (h : args.length ≠ cols.length) :
    runSetWithStatus cols status table store args =
      (store, [], Except.error "ValueError: wrong number of values") := by
  simp [runSetWithStatus, h]

/-- C10 witness: the two-column setter of `set_url_and_user_id_with_pending_images`
called with a single value. -/
theorem C10_witness :
    runSetWithStatus ["url", "user_id"] "pending" "images"
      [("images", ⟨[("id", ColType.intId)], []⟩)] [Val.text "u"] =
      ([("images", ⟨[("id", ColType.intId)], []⟩)], [], Except.error "ValueError: wrong number of values") :=
  C10_arity_check_first ["url", "user_id"] "pending" "images"
    [("images", ⟨[("id", ColType.intId)], []⟩)] [Val.text "u"] (by decide)

/-- Replacing the looked-up table leaves it reachable under its name. -/
theorem lookupTable_update_self (st : Store) (t : String) (tb tb₀ : DbTable)
    (h : lookupTable st t = some tb₀) :
    lookupTable (updateTable st t tb) t = some tb := by
  induction st with
  | nil => simp [lookupTable] at h
  | cons p rest ih =>
    cases hp : (p.1 == t) with
    | true => simp [lookupTable, updateTable, hp]
    | false =>
      simp only [lookupTable, hp, Bool.false_eq_true, if_false] at h
      simpa [lookupTable, updateTable, hp] using ih h

/-- A successful column addition appends the column name to the table's
column list and keeps the table present. -/
theorem addColumn_ok_cols (st st' : Store) (t c : String)
    (h : addColumn st t c = Except.ok st') :
    colsOf st' t = colsOf st t ++ [c] ∧ (lookupTable st' t).isSome = true := by
  unfold addColumn at h
  cases hl : lookupTable st t with
  | none =>
    rw [hl] at h
    simp at h
  | some tb =>
    simp only [hl] at h
    by_cases hc : (colNames tb).contains c = true
    · rw [if_pos hc] at h; simp at h
    · rw [if_neg hc] at h
      simp only [Except.ok.injEq] at h
      subst h
      have hu := lookupTable_update_self st t
        ⟨tb.cols ++ [(c, ColType.text)], tb.rows.map (fun r => r ++ [Val.null])⟩ tb hl
      refine ⟨?_, by simp [hu]⟩
      simp [colsOf, hu, hl, colNames]

/-- The ensure loop only ever appends columns: membership in the looped
table's column list is preserved, and so is the table's presence. -/
theorem ensureLoop_mono (t : String) (snap : List String) :
    ∀ (cs : List String) (st st' : Store) (acc acc' : List SEvent),
    ensureLoop t snap st cs acc = Except.ok (st', acc') →
    (∀ x, (colsOf st t).contains x = true → (colsOf st' t).contains x = true) ∧
    ((lookupTable st t).isSome = true → (lookupTable st' t).isSome = true) := by
  intro cs
  induction cs with
  | nil =>
    intro st st' acc acc' h
    simp only [ensureLoop, Except.ok.injEq, Prod.mk.injEq] at h
    obtain ⟨h1, -⟩ := h
    subst h1
    exact ⟨fun x hx => hx, fun hx => hx⟩
  | cons c rest ih =>
    intro st st' acc acc' h
    simp only [ensureLoop] at h
    by_cases hcs : snap.contains c = true
    · rw [if_pos hcs] at h
      exact ih st st' acc acc' h
    · rw [if_neg hcs] at h
      cases ha : addColumn st t c with
      | error e => rw [ha] at h; simp at h
      | ok st1 =>
        rw [ha] at h
        obtain ⟨hmono, hsome⟩ := ih st1 st' _ acc' h
        obtain ⟨hcols, hsome1⟩ := addColumn_ok_cols st st1 t c ha
        refine ⟨fun x hx => ?_, fun _ => hsome hsome1⟩
        apply hmono
        rw [hcols]
        simp at hx ⊢
        exact Or.inl hx

/-- After a successful ensure loop every requested column is a column of the
table, provided the snapshot under-approximates the table's columns. -/
theorem ensureLoop_covers (t : String) (snap : List String) :
    ∀ (cs : List String) (st st' : Store) (acc acc' : List SEvent),
    (∀ x, snap.contains x = true → (colsOf st t).contains x = true) →
    ensureLoop t snap st cs acc = Except.ok (st', acc') →
    ∀ c, cs.contains c = true → (colsOf st' t).contains c = true := by
  intro cs
  induction cs with
  | nil =>
    intro st st' acc acc' _ _ c hc
    simp at hc
  | cons c0 rest ih =>
    intro st st' acc acc' hsnap h c hc
    simp only [ensureLoop] at h
    have hc' : c = c0 ∨ rest.contains c = true := by
      simpa using hc
    by_cases hcs : snap.contains c0 = true
    · rw [if_pos hcs] at h
      rcases hc' with rfl | hr
      · exact (ensureLoop_mono t snap rest st st' acc acc' h).1 c (hsnap c hcs)
      · exact ih st st' acc acc' hsnap h c hr
    · rw [if_neg hcs] at h
      cases ha : addColumn st t c0 with
      | error e => rw [ha] at h; simp at h
      | ok st1 =>
        rw [ha] at h
        obtain ⟨hcols, -⟩ := addColumn_ok_cols st st1 t c0 ha
        have hsnap1 : ∀ x, snap.contains x = true → (colsOf st1 t).contains x = true := by
          intro x hx
          rw [hcols]
          have := hsnap x hx
          simp at this ⊢
          exact Or.inl this
        rcases hc' with rfl | hr
        · refine (ensureLoop_mono t snap rest st1 st' _ acc' h).1 c ?_
          rw [hcols]
          simp
        · exact ih st1 st' _ acc' hsnap1 h c hr

/-- When every requested column is already in the snapshot the ensure loop
changes nothing and reports nothing. -/
theorem ensureLoop_noop (t : String) (snap : List String) :
    ∀ (cs : List String), (∀ c, cs.contains c = true → snap.contains c = true) →
    ∀ (st : Store) (acc : List SEvent), ensureLoop t snap st cs acc = Except.ok (st, acc) := by
  intro cs
  induction cs with
  | nil => intro _ st acc; simp [ensureLoop]
  | cons c rest ih =>
    intro hall st acc
    have hc : snap.contains c = true := hall c (by simp)
    simp only [ensureLoop, if_pos hc]
    exact ih (fun x hx => hall x (by simp at hx ⊢; exact Or.inr hx)) st acc

/-- A freshly created table is reachable under its name. -/
theorem lookupTable_createTable (st : Store) (t : String) :
    (lookupTable (createTable st t) t).isSome = true := by
  induction st with
  | nil => simp [createTable, lookupTable]
  | cons p rest ih =>
    cases hp : (p.1 == t) with
    | true => simp [createTable, lookupTable, hp]
    | false => simpa [createTable, lookupTable, hp] using ih

/-- C4: a second `_ensure_table_and_columns` call with the same table and
column list performs no structural change at all — it creates no table, adds
no column, reports an empty change trace — and returns the schema the first
call produced. -/
theorem C4_ensure_idempotent (s : Store) (t : String) (cs : List String)
    (s₁ : Store) (tr : List SEvent)
    (h : ensureTableAndColumns s t cs = Except.ok (s₁, tr)) :
    ensureTableAndColumns s₁ t cs = Except.ok (s₁, []) := by
  unfold ensureTableAndColumns at h
  by_cases hs : (lookupTable s t).isSome = true
  case pos =>
    rw [if_pos hs] at h
    have hcov := ensureLoop_covers t (colsOf s t) cs s s₁ [] tr (fun x hx => hx) h
    have hsome₁ := (ensureLoop_mono t (colsOf s t) cs s s₁ [] tr h).2 hs
    unfold ensureTableAndColumns
    rw [if_pos hsome₁]
    exact ensureLoop_noop t (colsOf s₁ t) cs hcov s₁ []
  case neg =>
    rw [if_neg hs] at h
    have hcr : (lookupTable (createTable s t) t).isSome = true := lookupTable_createTable s t
    have hcov := ensureLoop_covers t (colsOf (createTable s t) t) cs (createTable s t) s₁
      [SEvent.createdTable t] tr (fun x hx => hx) h
    have hsome₁ := (ensureLoop_mono t (colsOf (createTable s t) t) cs (createTable s t) s₁
      [SEvent.createdTable t] tr h).2 hcr
    unfold ensureTableAndColumns
    rw [if_pos hsome₁]
    exact ensureLoop_noop t (colsOf s₁ t) cs hcov s₁ []

/-- C4 witness: ensuring `images` with columns image and user_id on the
empty store, then ensuring again: the second call returns the same schema
with an empty change trace. -/
theorem C4_witness :
    ensureTableAndColumns [] "images" ["image", "user_id"] =
      Except.ok ([("images", ⟨[("id", ColType.intId), ("image", ColType.text), ("user_id", ColType.text)], []⟩)],
        [SEvent.createdTable "images", SEvent.addedColumn "images" "image",
         SEvent.addedColumn "images" "user_id"]) ∧
    ensureTableAndColumns
        [("images", ⟨[("id", ColType.intId), ("image", ColType.text), ("user_id", ColType.text)], []⟩)]
        "images" ["image", "user_id"] =
      Except.ok ([("images", ⟨[("id", ColType.intId), ("image", ColType.text), ("user_id", ColType.text)], []⟩)], []) :=
  ⟨by decide,
   C4_ensure_idempotent [] "images" ["image", "user_id"]
     [("images", ⟨[("id", ColType.intId), ("image", ColType.text), ("user_id", ColType.text)], []⟩)]
     [SEvent.createdTable "images", SEvent.addedColumn "images" "image",
      SEvent.addedColumn "images" "user_id"]
     (by decide)⟩

/-- Every record a column-selecting query returns has exactly the wanted
columns as its keys, in order. -/
theorem selectCols_keys (st : Store) (t : String) (wanted : List String)
    (conds : List (String × Val)) (recs : List Record)
    (h : selectCols st t wanted conds = Except.ok recs) :
    ∀ r ∈ recs, r.map Prod.fst = wanted := by
  unfold selectCols at h
  cases hl : lookupTable st t with
  | none =>
    rw [hl] at h
    simp at h
  | some tb =>
    simp only [hl] at h
    by_cases hc : (wanted.all (fun c => (colNames tb).contains c) &&
        conds.all (fun cv => (colNames tb).contains cv.1)) = true
    · rw [if_pos hc] at h
      simp only [Except.ok.injEq] at h
      subst h
      intro r hr
      simp only [List.mem_map] at hr
      obtain ⟨row, -, rfl⟩ := hr
      simp only [List.map_map]
      exact List.map_id wanted
    · rw [if_neg hc] at h
      simp at h

/-- C3: whenever the pattern-1 getter parser produces a method, the status
literal is exactly the allow-listed token the matcher captured, the target
columns are exactly the `_and_`-split of the captured columns part in order,
and every successful run of the method returns precisely a selection of
those columns from the captured table filtered by status equal to that
token — every returned record carrying exactly those columns as keys. -/
theorem C3_pattern1_intent (cs : List Char) (g : GenMethod)
    (h : parseGetWithStatusTable cs = some g) :
    ∃ (op : String) (cp st tb : List Char),
      matchWithStatusTable cs = some (op, cp, st, tb) ∧
      STATUS_KEYWORDS.contains st.asString = true ∧
      g = GenMethod.getWithStatus (splitAnd cp) st.asString tb.asString ∧
      (∀ (store s' : Store) (ev : List SEvent) (recs : List Record),
        runGen g store [] = (s', ev, Except.ok recs) →
        selectCols s' tb.asString (splitAnd cp) [("status", Val.text st.asString)] = Except.ok recs ∧
        ∀ r ∈ recs, r.map Prod.fst = splitAnd cp) := by
  unfold parseGetWithStatusTable at h
  cases hm : matchWithStatusTable cs with
  | none =>
    rw [hm] at h
    simp at h
  | some q =>
    obtain ⟨op, cp, st, tb⟩ := q
    simp only [hm] at h
    by_cases hk : (OPERATION_KEYWORDS.contains op && STATUS_KEYWORDS.contains st.asString) = true
    · rw [if_pos hk] at h
      simp only [Option.some.injEq] at h
      subst h
      have hk2 : STATUS_KEYWORDS.contains st.asString = true := by
        have hk' := hk
        simp only [Bool.and_eq_true] at hk'
        exact hk'.2
      refine ⟨op, cp, st, tb, rfl, hk2, rfl, ?_⟩
      intro store s' ev recs hrun
      simp only [runGen, runGetWithStatus] at hrun
      cases he : ensureTableAndColumns store tb.asString (splitAnd cp ++ ["status"]) with
      | error e =>
        simp only [he] at hrun
        simp at hrun
      | ok p =>
        obtain ⟨s1, ev1⟩ := p
        simp only [he] at hrun
        cases hs : selectCols s1 tb.asString (splitAnd cp) [("status", Val.text st.asString)] with
        | error e =>
          simp only [hs] at hrun
          simp at hrun
        | ok recs' =>
          simp only [hs] at hrun
          simp only [Prod.mk.injEq, Except.ok.injEq] at hrun
          obtain ⟨h1, -, h3⟩ := hrun
          subst h1
          subst h3
          exact ⟨hs, selectCols_keys s1 tb.asString (splitAnd cp) [("status", Val.text st.asString)] recs' hs⟩
    · rw [if_neg hk] at h
      simp at h

/-- C3 witness: the pattern-1 intent property instantiated at the concrete
name `get_user_ids_and_birthdays_with_pending_images`. -/
theorem C3_witness :
    ∃ (op : String) (cp st tb : List Char),
      matchWithStatusTable "get_user_ids_and_birthdays_with_pending_images".data = some (op, cp, st, tb) ∧
      STATUS_KEYWORDS.contains st.asString = true ∧
      GenMethod.getWithStatus ["user_ids", "birthdays"] "pending" "images" =
        GenMethod.getWithStatus (splitAnd cp) st.asString tb.asString ∧
      (∀ (store s' : Store) (ev : List SEvent) (recs : List Record),
        runGen (GenMethod.getWithStatus ["user_ids", "birthdays"] "pending" "images") store [] =
          (s', ev, Except.ok recs) →
        selectCols s' tb.asString (splitAnd cp) [("status", Val.text st.asString)] = Except.ok recs ∧
        ∀ r ∈ recs, r.map Prod.fst = splitAnd cp) :=
  C3_pattern1_intent "get_user_ids_and_birthdays_with_pending_images".data
    (GenMethod.getWithStatus ["user_ids", "birthdays"] "pending" "images") (by decide)


/-- Literal lists are prefixes of their own extensions. -/
theorem isPrefixOf_append_self (p : List Char) : ∀ s, p.isPrefixOf (p ++ s) = true := by
  induction p with
  | nil => intro s; simp
  | cons a as ih => intro s; simp [List.isPrefixOf, ih]

/-- Stripping a literal leading pattern from its own extension. -/
theorem dropPre_append (p s : List Char) : dropPre p (p ++ s) = some s := by
  simp [dropPre, isPrefixOf_append_self, List.drop_left]

/-- C8 (amended): of the pattern-6 names `<op>_<t>` only the get form
produces a method.  For a table identifier `t` free of the `_by_` and
`_with_` markers and of the `_status` suffix, `set_<t>` falls through every
setter parser and raises AttributeError, `update_<t>` and `delete_<t>` are
not dispatched at all, while `get_<t>` always yields a method when `t` is a
nonempty identifier. -/
theorem C8_amended_only_get (t : List Char)
    (h1 : splitAllOcc "_by_".data t = [])
    (h2 : splitAllOcc "_with_".data t = [])
    (h3 : dropSuffix "_status".data t = none)
    (h4 : t ≠ [])
    (h5 : allWord t = true) :
    dispatchL ("set_".data ++ t) = none ∧
    dispatchL ("update_".data ++ t) = none ∧
    dispatchL ("delete_".data ++ t) = none ∧
    (dispatchL ("get_".data ++ t)).isSome = true := by
  have hdropSet : dropPre ['s', 'e', 't', '_'] ('s' :: 'e' :: 't' :: '_' :: t) = some t :=
    dropPre_append "set_".data t
  have hdropGet : dropPre ['g', 'e', 't', '_'] ('g' :: 'e' :: 't' :: '_' :: t) = some t :=
    dropPre_append "get_".data t
  have h1' : splitAllOcc ['_', 'b', 'y', '_'] t = [] := h1
  have h2' : splitAllOcc ['_', 'w', 'i', 't', 'h', '_'] t = [] := h2
  have h3' : dropSuffix ['_', 's', 't', 'a', 't', 'u', 's'] t = none := h3
  have hA : parseSetStatusMethod ('s' :: 'e' :: 't' :: '_' :: t) = none := by
    simp [parseSetStatusMethod, matchSetStatus, hdropSet, h3']
  have hB : parseSetWithStatusTable ('s' :: 'e' :: 't' :: '_' :: t) = none := by
    simp [parseSetWithStatusTable, matchSetWithStatusTable, hdropSet, h2', greedyLast]
  have hC : parseSetByTwoColumns ('s' :: 'e' :: 't' :: '_' :: t) = none := by
    simp [parseSetByTwoColumns, matchSetByTwo, hdropSet, h1', greedyLast]
  have hD : parseSetByColumn ('s' :: 'e' :: 't' :: '_' :: t) = none := by
    simp [parseSetByColumn, matchSetByColumn, hdropSet, h1', greedyLast]
  have hpre : ("set_".data.isPrefixOf ('s' :: 'e' :: 't' :: '_' :: t)) = true :=
    isPrefixOf_append_self "set_".data t
  refine ⟨?_, rfl, rfl, ?_⟩
  · simp [dispatchL, hpre, hA, hB, hC, hD]
  · have hne : ("set_".data.isPrefixOf ('g' :: 'e' :: 't' :: '_' :: t)) = false := rfl
    have hgp : ("get_".data.isPrefixOf ('g' :: 'e' :: 't' :: '_' :: t)) = true :=
      isPrefixOf_append_self "get_".data t
    have hsimple : parseGetSimpleTable ('g' :: 'e' :: 't' :: '_' :: t) =
        some (GenMethod.getSimple t.asString) := by
      simp [parseGetSimpleTable, matchSimple, opSplit, hdropGet, h4, h5, OPERATION_KEYWORDS]
    simp only [dispatchL, hne, Bool.false_eq_true, if_false, hgp, if_true]
    cases hx : parseGetWithStatusTable ('g' :: 'e' :: 't' :: '_' :: t) with
    | some m => simp [hx]
    | none =>
      cases hy : parseGetByColumn ('g' :: 'e' :: 't' :: '_' :: t) with
      | some m => simp [hx, hy]
      | none => simp [hx, hy, hsimple]

/-- C8 witness: the amended dispatch behaviour at the concrete table
identifier `widgets`. -/
theorem C8_amended_witness :
    dispatchL ("set_".data ++ "widgets".data) = none ∧
    dispatchL ("update_".data ++ "widgets".data) = none ∧
    dispatchL ("delete_".data ++ "widgets".data) = none ∧
    (dispatchL ("get_".data ++ "widgets".data)).isSome = true :=
  C8_amended_only_get "widgets".data (by decide) (by decide) (by decide) (by decide) (by decide)

end MethodGen
